import Mathlib

/-!
Verification development for the GenBank-assembly bot notebook.

The notebook reads a tab-separated genome report, keeps rows whose
`Status` is `Complete Genome`, groups accessions by `TaxID`, drops taxids
with more than one accession row, and then writes the accession of each
surviving taxid onto the matching remote entity, with provenance
references, in three variants (per-record search, bulk fast-run, and
fast-run with reference-freshness checking).

Pure parts of the notebook are embedded directly.  Behaviour that the
notebook delegates to the `wikidataintegrator` library (fast-run diffing,
`try_write` retry, `id_mapper`, `update_retrieved_if_new`, logging
helpers) is not present in the repository's sources; those parts are
modelled from the specification, and each such definition says so in its
doc comment.
-/

namespace Demo

/-- A raw input row of the tab-separated genome report: the fields of
`prokaryotes.txt` the notebook uses (`Status`, `TaxID`,
`Assembly Accession`). -/
structure Row where
  status : String
  taxID : Nat
  accession : String
deriving DecidableEq, Repr

/-- The configured accepted status value: `df.query("Status == 'Complete Genome'")`. -/
def acceptedStatus : String := "Complete Genome"

/-- The rows admitted by the status filter. -/
def completeRows (rows : List Row) : List Row :=
  rows.filter (fun r => r.status == acceptedStatus)

/-- The list of accessions observed for taxid `k` among admitted rows, in
input order and with multiplicity: this is the value the notebook's
`groupby("TaxID").agg(\x7b'Assembly Accession': lambda x: list(x)\x7d)`
associates to key `k`. -/
def accessionsFor (rows : List Row) (k : Nat) : List String :=
  ((completeRows rows).filter (fun r => r.taxID == k)).map Row.accession

/-- The loader's output mapping, as a function from keys to optional
values: `d = \x7bk: v[0] for k, v in d.items() if len(v) == 1\x7d` keeps a key
exactly when its accession list has length one and emits its only
element. -/
def load (rows : List Row) (k : Nat) : Option String :=
  match accessionsFor rows k with
  | [v] => some v
  | _ => none

/-- Two admitted rows carrying the same taxid and the same accession. -/
def dupRows : List Row :=
  [⟨"Complete Genome", 9, "GCA_900128725.1"⟩,
   ⟨"Complete Genome", 9, "GCA_900128725.1"⟩]

/-- Two admitted rows carrying the same taxid and different accessions. -/
def ambRows : List Row :=
  [⟨"Complete Genome", 7, "GCA_000237975.1"⟩,
   ⟨"Complete Genome", 7, "GCA_000299965.1"⟩]

/-- A remote entity identifier (a QID string such as `"Q383453"`). -/
abbrev Qid := String

/-- First-match lookup in an association list keyed by strings, the
semantics of a Python dict access (dict keys are unique, so first match
is the only match). -/
def lookupKey {α : Type} : List (String × α) → String → Option α
  | [], _ => none
  | (a, b) :: t, k => if a = k then some b else lookupKey t k

/-- The remote store restricted to what the fast-run cache tracks: each
entity's current value for the GenBank Assembly accession property. -/
abbrev Store := List (Qid × String)

/-- Current value of the accession property on entity `q`. -/
def storeGet (s : Store) (q : Qid) : Option String :=
  lookupKey s q

/-- Write value `v` for the accession property on entity `q` (replace the
existing statement value, or add one). -/
def storeSet : Store → Qid → String → Store
  | [], q, v => [(q, v)]
  | (a, b) :: t, q, v => if a = q then (a, v) :: t else (a, b) :: storeSet t q v

/-- The terminal outcome of processing one record. -/
inductive Outcome where
  | written (qid : Qid)
  | skipped (qid : Qid)
  | notFound
  | ambiguous (n : Nat)
  | transientExhausted (qid : Qid)
  | conflictError (qid : Qid)
deriving DecidableEq, Repr

/-- The entity an outcome resolved to, if any. -/
def Outcome.target : Outcome → Option Qid
  | .written q => some q
  | .skipped q => some q
  | .transientExhausted q => some q
  | .conflictError q => some q
  | .notFound => none
  | .ambiguous _ => none

/-- The GenBank Assembly accession property id (`PROPS['GenBank Assembly accession']`). -/
def propGenBank : String := "P4333"

/-- Fast-run processing of one record (notebook V2 `run_one`): the
numeric taxid is converted with `str(taxid)` and looked up in
`tax_qid_map`; a missing key logs a warning and returns with no remote
call.  The write path is modelled from the spec: the fast-run cache
(`ExistingState`, here the snapshot `snap`) is consulted and a matching
value short-circuits to a skip with no write, otherwise the value is
written to the store.  Returns the outcome and the resulting store. -/
def runOneV2 (index : List (String × Qid)) (snap : Store) (st : Store)
    (taxid : Nat) (gid : String) : Outcome × Store :=
  match lookupKey index (Nat.repr taxid) with
  | none => (.notFound, st)
  | some qid =>
      if storeGet snap qid = some gid then (.skipped qid, st)
      else (.written qid, storeSet st qid gid)

/-- The outcome of fast-run processing depends only on the snapshot, not
on the evolving store; this function computes it. -/
def outcomeV2 (index : List (String × Qid)) (snap : Store)
    (taxid : Nat) (gid : String) : Outcome :=
  match lookupKey index (Nat.repr taxid) with
  | none => .notFound
  | some qid =>
      if storeGet snap qid = some gid then .skipped qid else .written qid

/-- The notebook's batch loop over `d.items()` in fast-run mode: the
snapshot is fixed for the whole run, the store threads through writes. -/
def runBatchV2 (index : List (String × Qid)) (snap : Store) :
    Store → List (Nat × String) → List Outcome × Store
  | st, [] => ([], st)
  | st, (t, g) :: rs =>
      let p := runOneV2 index snap st t g
      let q := runBatchV2 index snap p.2 rs
      (p.1 :: q.1, q.2)

/-- A full run: the fast-run cache is a snapshot of the remote store
taken at the start of the run (modelled from the spec: `ExistingState` is
built once per run and not invalidated by the run's own writes). -/
def runFull (index : List (String × Qid)) (st : Store)
    (recs : List (Nat × String)) : List Outcome × Store :=
  runBatchV2 index st st recs

/-- The entities the index resolves the batch's records to, in order. -/
def resolvedQids (index : List (String × Qid)) (recs : List (Nat × String)) : List Qid :=
  recs.filterMap (fun r => lookupKey index (Nat.repr r.1))

/-- Index used by the rerun witness. -/
def wIndex2 : List (String × Qid) := [("9", "Q383453")]

/-- The single-record batch used by the rerun witness. -/
def wRecs2 : List (Nat × String) := [(9, "GCA_900128725.1")]

/-- An existing fact on the remote entity as the fast-run cache sees it:
the statement value together with the day (in days since the existing
reference's retrieval epoch) its reference was retrieved. -/
structure ExistingFact where
  value : String
  retrievedDay : Nat
deriving DecidableEq, Repr

/-- The write plans of the reconciliation engine. -/
inductive WritePlan where
  | create
  | noOp
  | updateReference
deriving DecidableEq, Repr

/-- The staleness window the notebook configures:
`partial(ref_handlers.update_retrieved_if_new, days=180)`. -/
def stalenessWindow : Nat := 180

/-- Modelled from the spec: `ref_handlers.update_retrieved_if_new` is not
in the repository's sources, only its configured use.  The spec's rule:
with reference-freshness checking enabled, a differing value plans a
create/overwrite; a matching value plans a reference update when the
existing reference's retrieved day lies at least the staleness window
before the evaluation day (at or beyond the boundary is stale), and a
no-op otherwise. -/
def planV3 (existing : Option ExistingFact) (newVal : String)
    (evalDay window : Nat) : WritePlan :=
  match existing with
  | none => .create
  | some f =>
      if f.value = newVal then
        if window ≤ evalDay - f.retrievedDay then .updateReference else .noOp
      else .create

/-- A calendar date in UTC, as `gmtime()` provides it. -/
structure UTCDate where
  year : Nat
  month : Nat
  day : Nat
deriving DecidableEq, Repr

/-- Zero-padded two-digit decimal rendering, as `strftime` pads `%m`/`%d`. -/
def pad2 (n : Nat) : String :=
  if n < 10 then "0" ++ Nat.repr n else Nat.repr n

/-- Zero-padded four-digit decimal rendering, as `strftime` pads `%Y`. -/
def pad4 (n : Nat) : String :=
  if n < 10 then "000" ++ Nat.repr n
  else if n < 100 then "00" ++ Nat.repr n
  else if n < 1000 then "0" ++ Nat.repr n
  else Nat.repr n

/-- The retrieved-timestamp string the notebook builds:
`strftime("+%Y-%m-%dT00:00:00Z", gmtime())` — the current UTC date with
the time-of-day component fixed to midnight. -/
def retrievedTimestamp (d : UTCDate) : String :=
  "+" ++ pad4 d.year ++ "-" ++ pad2 d.month ++ "-" ++ pad2 d.day ++ "T00:00:00Z"

/-- The value carried by a reference statement. -/
inductive WDValue where
  | item (qid : String)
  | time (t : String)
  | url (u : String)
deriving DecidableEq, Repr

/-- One reference statement: a property with a value, used as part of a
reference group (`is_reference=True` in the notebook). -/
structure WDRefStatement where
  prop : String
  value : WDValue
deriving DecidableEq, Repr

/-- The `stated in` property id (`PROPS['stated in']`). -/
def propStatedIn : String := "P248"

/-- The `retrieved` property id (`PROPS['retrieved']`). -/
def propRetrieved : String := "P813"

/-- The `reference URL` property id (`PROPS['reference URL']`). -/
def propRefURL : String := "P854"

/-- The GenBank item id (`ITEMS['GenBank']`). -/
def itemGenBank : String := "Q901755"

/-- The reference-URL template applied to an accession:
`"https://www.ncbi.nlm.nih.gov/genome/?term=\x7b\x7d".format(genbank_id)`. -/
def genomeURL (genbank_id : String) : String :=
  "https://www.ncbi.nlm.nih.gov/genome/?term=" ++ genbank_id

/-- The notebook's `create_reference`: the reference group attached to
every written accession statement, parameterised by the current UTC date
that `gmtime()` returns. -/
def create_reference (genbank_id : String) (today : UTCDate) :
    List WDRefStatement :=
  [⟨propStatedIn, .item itemGenBank⟩,
   ⟨propRetrieved, .time (retrievedTimestamp today)⟩,
   ⟨propRefURL, .url (genomeURL genbank_id)⟩]

/-- One structured audit-log line: severity, record id (the notebook logs
the accession as `record_id`), target property, resolved entity if any,
and message — the fields `wdi_helpers.format_msg` assembles. -/
structure LogEntry where
  level : String
  recordId : String
  prop : String
  qid : Option Qid
  message : String
deriving DecidableEq, Repr

/-- A remote response to one write attempt. -/
inductive WriteResp where
  | ok
  | transient
  | conflict
deriving DecidableEq, Repr

/-- The remote behaviour one record meets in per-record mode: the entity
set the identifying-property search returns, and the response to each
successive write attempt. -/
structure RecordEnv where
  found : List Qid
  resps : List WriteResp
deriving DecidableEq, Repr

/-- Modelled from the spec: `wdi_helpers.try_write` and the client's
retry machinery are not in the repository's sources.  The spec's rule: a
write retries on transient failure up to a bounded attempt count and
surfaces exhaustion as an error; a conflict is an error and is never
retried; success yields a written outcome.  Returns the outcome and the
number of remote write calls made. -/
def tryWrite (qid : Qid) : Nat → List WriteResp → Outcome × Nat
  | 0, _ => (.transientExhausted qid, 0)
  | _ + 1, [] => (.transientExhausted qid, 0)
  | cap + 1, r :: rs =>
      match r with
      | .ok => (.written qid, 1)
      | .conflict => (.conflictError qid, 1)
      | .transient =>
          let p := tryWrite qid cap rs
          (p.1, p.2 + 1)

/-- Per-record processing (notebook V1 `run_one`): the search by NCBI
taxonomy id yields `env.found`; more than one match raises
`ManualInterventionReqException`, which the notebook catches, logs as an
error and returns from; no match logs a warning and skips; exactly one
match proceeds to `try_write`.  Returns the outcome and the number of
remote write calls made. -/
def runOneV1 (cap : Nat) (env : RecordEnv) (taxid : Nat) (gid : String) :
    Outcome × Nat :=
  match env.found with
  | [] => (.notFound, 0)
  | [q] => tryWrite q cap env.resps
  | qs => (.ambiguous qs.length, 0)

/-- The audit-log line V1 `run_one` emits for a record, per branch of the
notebook: warning on no match, error on ambiguous match (the caught
exception), and the `try_write` outcome otherwise. -/
def entryV1 (cap : Nat) (env : RecordEnv) (taxid : Nat) (gid : String) :
    LogEntry :=
  match env.found with
  | [] => ⟨"WARNING", gid, propGenBank, none,
      "No organism found with taxid " ++ Nat.repr taxid⟩
  | [q] =>
      match (tryWrite q cap env.resps).1 with
      | .written q' => ⟨"INFO", gid, propGenBank, some q', "write successful"⟩
      | .transientExhausted q' =>
          ⟨"ERROR", gid, propGenBank, some q', "retry attempts exhausted"⟩
      | .conflictError q' => ⟨"ERROR", gid, propGenBank, some q', "write conflict"⟩
      | _ => ⟨"INFO", gid, propGenBank, some q, "SKIP"⟩
  | _ => ⟨"ERROR", gid, propGenBank, none,
      "ManualInterventionReqException: more than one item matches"⟩

/-- The V1 batch loop: one record after the other, each producing its
outcome independently. -/
def runBatchV1 (cap : Nat) : List (RecordEnv × Nat × String) → List (Outcome × Nat)
  | [] => []
  | (env, t, g) :: rs => runOneV1 cap env t g :: runBatchV1 cap rs

/-- Modelled from the spec: `wdi_helpers.format_msg`, `WDItemEngine.log`
and `try_write`'s logging are library code.  The audit-log line V2
`run_one` emits for a record: the warning branch for a missing index key
is the notebook's own code; a resolved record logs the write outcome (a
skip or a successful write) at info severity. -/
def entryV2 (index : List (String × Qid)) (snap : Store) (taxid : Nat)
    (gid : String) : LogEntry :=
  match lookupKey index (Nat.repr taxid) with
  | none => ⟨"WARNING", gid, propGenBank, none,
      "organism with taxid " ++ Nat.repr taxid ++ " not found or skipped"⟩
  | some qid =>
      if storeGet snap qid = some gid then
        ⟨"INFO", gid, propGenBank, some qid, "SKIP"⟩
      else
        ⟨"INFO", gid, propGenBank, some qid, "write successful"⟩

/-- The run metadata `WDItemEngine.setup_logging(header=...)` receives:
the logical task name, the start timestamp and the run identifier. -/
structure Header where
  name : String
  timestamp : String
  run_id : String
deriving DecidableEq, Repr

/-- The header line placed at the start of the log stream. -/
def headerLine (h : Header) : String :=
  "#name=" ++ h.name ++ ";timestamp=" ++ h.timestamp ++ ";run_id=" ++ h.run_id

/-- One rendered log line: severity, record id, property, resolved
entity if any, and message, semicolon-separated as in the notebook's log
files. -/
def renderEntry (e : LogEntry) : String :=
  e.level ++ ";" ++ e.recordId ++ ";" ++ e.prop ++ ";" ++
    (match e.qid with | some q => q | none => "") ++ ";" ++ e.message

/-- The state of the audit-log stream: its header and the entries
appended so far. -/
structure LogState where
  header : Header
  entries : List LogEntry
deriving DecidableEq, Repr

/-- The rendered log stream: the header line followed by one line per
entry. -/
def renderLog (ls : LogState) : List String :=
  headerLine ls.header :: ls.entries.map renderEntry

/-- Appending one entry to the log stream. -/
def logAppend (ls : LogState) (e : LogEntry) : LogState :=
  ⟨ls.header, ls.entries ++ [e]⟩

/-- The V2 batch loop viewed through its logging effect: each record
appends exactly one entry. -/
def runBatchV2Log (index : List (String × Qid)) (snap : Store) :
    LogState → List (Nat × String) → LogState
  | ls, [] => ls
  | ls, (t, g) :: rs =>
      runBatchV2Log index snap (logAppend ls (entryV2 index snap t g)) rs

/-- Header used by the audit-log witness, with the values of the
notebook's logged run. -/
def wHeader : Header :=
  ⟨"genbank assembly", "2017-10-13 13:50:10", "2017-10-13 13:50:10"⟩

/-- One step of building the identifier→entity-set index: record that
entity `q` carries identifier value `v`, collecting each value's distinct
entities (set semantics, as `return_as_set=True` provides). -/
def addToBucket : List (String × List Qid) → String → Qid → List (String × List Qid)
  | [], v, q => [(v, [q])]
  | (a, qs) :: t, v, q =>
      if a = v then (a, if q ∈ qs then qs else qs ++ [q]) :: t
      else (a, qs) :: addToBucket t v q

/-- Modelled from the spec: `wdi_helpers.id_mapper(P685, return_as_set=True)`
is library code; per the spec the bulk strategy fetches, in one pass, the
entire identifier→entity-set index for the identifying property.  The
remote-store snapshot is the list of (entity, identifier-value)
statements. -/
def idMapper (snap : List (Qid × String)) : List (String × List Qid) :=
  snap.foldl (fun acc p => addToBucket acc p.2 p.1) []

/-- The notebook's `tax_qid_map` built from the bulk index:
`\x7bk: list(v)[0] for k, v in tax_qid_map.items() if len(v) == 1\x7d` keeps
only identifiers with exactly one matching entity. -/
def bulkIndex (snap : List (Qid × String)) : List (String × Qid) :=
  (idMapper snap).filterMap (fun p =>
    match p.2 with
    | [q] => some (p.1, q)
    | _ => none)

/-- The entities a per-record search by identifying property value
returns (each matching entity listed once). -/
def searchQids (snap : List (Qid × String)) (v : String) : List Qid :=
  ((snap.filter (fun p => p.2 == v)).map Prod.fst).dedup

/-- The per-record strategy (notebook V1): resolve when the search finds
exactly one entity; zero matches is not-found, several matches the
ambiguity error — in either case no entity id is produced. -/
def perRecordResolve (snap : List (Qid × String)) (v : String) : Option Qid :=
  match searchQids snap v with
  | [q] => some q
  | _ => none

/-- The entity set recorded for value `v` in an index under
construction. -/
def bucketOf (idx : List (String × List Qid)) (v : String) : List Qid :=
  (lookupKey idx v).getD []

/-- The identifier values an index carries. -/
def keysOf (idx : List (String × List Qid)) : List String :=
  idx.map Prod.fst

/-- Remote-store snapshot used by the agreement witness: two entities,
each carrying one taxonomy-id value. -/
def wSnap6 : List (Qid × String) := [("Q383453", "9"), ("Q16992341", "172042")]

/-- C1, counterexample: on an input with two admitted rows both mapping
taxid 9 to the same accession, the set of distinct values observed for
key 9 has cardinality exactly 1, yet the loader's output does not contain
key 9 — the loader counts rows, not distinct values. -/
theorem C1_counterexample :
    (accessionsFor dupRows 9).dedup.length = 1 ∧ load dupRows 9 = none := by
  decide

/-- C1, amended: the loader's output contains key `k` with value `v` if
and only if exactly one admitted row carries key `k` (duplicates counted
with multiplicity) and that row's value is `v`; in particular any key
whose distinct-value set has cardinality greater than 1 is absent from
the output. -/
theorem C1_loader (rows : List Row) (k : Nat) :
    (∀ v, load rows k = some v ↔ accessionsFor rows k = [v]) ∧
    (1 < (accessionsFor rows k).dedup.length → load rows k = none) := by
  constructor
  · intro v
    cases h : accessionsFor rows k with
    | nil => simp [load, h]
    | cons a t =>
      cases t with
      | nil => simp [load, h]
      | cons b t' => simp [load, h]
  · intro hlen
    cases h : accessionsFor rows k with
    | nil => rw [h] at hlen; simp at hlen
    | cons a t =>
      cases t with
      | nil =>
        rw [h] at hlen
        have hle := (List.dedup_sublist (l := [a])).length_le
        simp only [List.length_cons, List.length_nil] at hle
        omega
      | cons b t' => simp [load, h]

/-- C1 witness: on an input where taxid 7 has two admitted rows with two
distinct accessions, the amended theorem yields that key 7 is absent. -/
theorem C1_loader_witness : load ambRows 7 = none :=
  (C1_loader ambRows 7).2 (by decide)

/-- C5: in bulk-index mode, a record whose stringified taxid has no entry
in the index yields the not-found outcome, logged at warning severity,
and leaves the store untouched: `run_one` returns before any remote
call. -/
theorem C5_not_found (index : List (String × Qid)) (snap st : Store)
    (taxid : Nat) (gid : String)
    (h : lookupKey index (Nat.repr taxid) = none) :
    runOneV2 index snap st taxid gid = (.notFound, st) ∧
    (entryV2 index snap taxid gid).level = "WARNING" := by
  constructor
  · simp [runOneV2, h]
  · simp [entryV2, h]

/-- C5 witness: taxid 9 is absent from an index holding only key "10". -/
theorem C5_not_found_witness :
    runOneV2 [("10", "Q100")] [] [] 9 "GCA_900128725.1" =
      (.notFound, []) ∧
    (entryV2 [("10", "Q100")] [] 9 "GCA_900128725.1").level = "WARNING" :=
  C5_not_found [("10", "Q100")] [] [] 9 "GCA_900128725.1" (by decide)

/-- C9: fast-run `run_one` consults the string-keyed index at the decimal
string form of the numeric taxid: the outcome's resolved entity is
exactly the index entry at `str(taxid)`, so resolution succeeds if and
only if `str(taxid)` is a retained key, and then targets exactly
`tax_qid_map[str(taxid)]`. -/
theorem C9_string_lookup (index : List (String × Qid)) (snap : Store)
    (taxid : Nat) (gid : String) :
    (outcomeV2 index snap taxid gid).target = lookupKey index (Nat.repr taxid) ∧
    (outcomeV2 index snap taxid gid = .notFound ↔
      lookupKey index (Nat.repr taxid) = none) := by
  cases h : lookupKey index (Nat.repr taxid) with
  | none => simp [outcomeV2, h, Outcome.target]
  | some q =>
      by_cases hv : storeGet snap q = some gid
      · simp [outcomeV2, h, hv, Outcome.target]
      · simp [outcomeV2, h, hv, Outcome.target]

/-- Reading after a write: the written key now holds the value, all other
keys are untouched. -/
theorem storeGet_storeSet (st : Store) (q : Qid) (v : String) (q' : Qid) :
    storeGet (storeSet st q v) q' = if q = q' then some v else storeGet st q' := by
  induction st with
  | nil => simp [storeSet, storeGet, lookupKey]
  | cons p t ih =>
      obtain ⟨a, b⟩ := p
      by_cases hq : a = q
      · subst hq
        by_cases hq' : a = q' <;>
          simp [storeSet, storeGet, lookupKey, hq']
      · by_cases hq' : a = q'
        · subst hq'
          have : ¬ q = a := fun h => hq h.symm
          simp [storeSet, storeGet, lookupKey, hq, this]
        · simpa [storeSet, storeGet, lookupKey, hq, hq'] using ih

/-- The first projection of `runOneV2` is the store-independent outcome. -/
theorem runOneV2_fst (index : List (String × Qid)) (snap st : Store)
    (taxid : Nat) (gid : String) :
    (runOneV2 index snap st taxid gid).1 = outcomeV2 index snap taxid gid := by
  cases h : lookupKey index (Nat.repr taxid) with
  | none => simp [runOneV2, outcomeV2, h]
  | some q =>
      by_cases hv : storeGet snap q = some gid <;>
        simp [runOneV2, outcomeV2, h, hv]

/-- The outcome list of a batch is the per-record outcome of each record,
in order: outcomes depend on the fixed snapshot only. -/
theorem runBatchV2_fst_cons (index : List (String × Qid)) (snap st : Store)
    (t : Nat) (g : String) (rs : List (Nat × String)) :
    (runBatchV2 index snap st ((t, g) :: rs)).1 =
      (runOneV2 index snap st t g).1 ::
        (runBatchV2 index snap (runOneV2 index snap st t g).2 rs).1 := rfl

/-- Cons equation for the store a batch yields. -/
theorem runBatchV2_snd_cons (index : List (String × Qid)) (snap st : Store)
    (t : Nat) (g : String) (rs : List (Nat × String)) :
    (runBatchV2 index snap st ((t, g) :: rs)).2 =
      (runBatchV2 index snap (runOneV2 index snap st t g).2 rs).2 := rfl

/-- An unresolved record makes no remote call. -/
theorem runOneV2_none {index : List (String × Qid)} {snap st : Store}
    {taxid : Nat} {gid : String}
    (h : lookupKey index (Nat.repr taxid) = none) :
    runOneV2 index snap st taxid gid = (.notFound, st) := by
  simp [runOneV2, h]

/-- A record whose value the snapshot already carries skips the write. -/
theorem runOneV2_skip {index : List (String × Qid)} {snap st : Store}
    {taxid : Nat} {gid : String} {q : Qid}
    (h : lookupKey index (Nat.repr taxid) = some q)
    (hv : storeGet snap q = some gid) :
    runOneV2 index snap st taxid gid = (.skipped q, st) := by
  simp [runOneV2, h, hv]

/-- A record whose value the snapshot does not carry writes it. -/
theorem runOneV2_write {index : List (String × Qid)} {snap st : Store}
    {taxid : Nat} {gid : String} {q : Qid}
    (h : lookupKey index (Nat.repr taxid) = some q)
    (hv : storeGet snap q ≠ some gid) :
    runOneV2 index snap st taxid gid = (.written q, storeSet st q gid) := by
  simp [runOneV2, h, hv]

/-- The outcome list of a batch is the per-record outcome of each record,
in order: outcomes depend on the fixed snapshot only. -/
theorem runBatchV2_fst (index : List (String × Qid)) (snap : Store)
    (recs : List (Nat × String)) : ∀ st : Store,
    (runBatchV2 index snap st recs).1 =
      recs.map (fun r => outcomeV2 index snap r.1 r.2) := by
  induction recs with
  | nil => intro st; rfl
  | cons r rs ih =>
      intro st
      obtain ⟨t, g⟩ := r
      rw [runBatchV2_fst_cons, runOneV2_fst, List.map_cons, ih]

/-- Resolution list of a batch headed by an unresolvable record. -/
theorem resolvedQids_cons_none {index : List (String × Qid)} {t : Nat}
    {g : String} {rs : List (Nat × String)}
    (h : lookupKey index (Nat.repr t) = none) :
    resolvedQids index ((t, g) :: rs) = resolvedQids index rs := by
  simp [resolvedQids, List.filterMap_cons, h]

/-- Resolution list of a batch headed by a resolvable record. -/
theorem resolvedQids_cons_some {index : List (String × Qid)} {t : Nat}
    {g : String} {rs : List (Nat × String)} {q : Qid}
    (h : lookupKey index (Nat.repr t) = some q) :
    resolvedQids index ((t, g) :: rs) = q :: resolvedQids index rs := by
  simp [resolvedQids, List.filterMap_cons, h]

/-- Membership in the resolution list. -/
theorem mem_resolvedQids {index : List (String × Qid)}
    {recs : List (Nat × String)} {q : Qid} :
    q ∈ resolvedQids index recs ↔
      ∃ r, r ∈ recs ∧ lookupKey index (Nat.repr r.1) = some q :=
  List.mem_filterMap

/-- A batch only ever writes to entities its records resolve to. -/
theorem runBatchV2_unresolved (index : List (String × Qid)) (snap : Store)
    (recs : List (Nat × String)) : ∀ st : Store, ∀ q : Qid,
    q ∉ resolvedQids index recs →
    storeGet (runBatchV2 index snap st recs).2 q = storeGet st q := by
  induction recs with
  | nil => intro st q _; rfl
  | cons r rs ih =>
      intro st q hq
      obtain ⟨t, g⟩ := r
      rw [runBatchV2_snd_cons]
      cases h : lookupKey index (Nat.repr t) with
      | none =>
          rw [resolvedQids_cons_none h] at hq
          simp only [runOneV2_none h]
          exact ih st q hq
      | some q0 =>
          rw [resolvedQids_cons_some h] at hq
          have hne : q ≠ q0 := fun hEq => hq (hEq ▸ List.mem_cons_self _ _)
          have hq' : q ∉ resolvedQids index rs :=
            fun hm => hq (List.mem_cons_of_mem _ hm)
          by_cases hv : storeGet snap q0 = some g
          · simp only [runOneV2_skip h hv]
            exact ih st q hq'
          · simp only [runOneV2_write h hv]
            rw [ih _ q hq', storeGet_storeSet,
              if_neg (fun hEq : q0 = q => hne hEq.symm)]

/-- Effect of a batch on a resolved entity: provided no two records of
the batch resolve to the same entity, the entity a record resolves to
ends the batch holding that record's value (or its initial value when the
snapshot already matched). -/
theorem runBatchV2_resolved (index : List (String × Qid)) (snap : Store)
    (recs : List (Nat × String)) :
    (resolvedQids index recs).Nodup →
    ∀ st : Store, ∀ tr : Nat, ∀ gr : String, (tr, gr) ∈ recs →
    ∀ q : Qid, lookupKey index (Nat.repr tr) = some q →
    storeGet (runBatchV2 index snap st recs).2 q =
      if storeGet snap q = some gr then storeGet st q else some gr := by
  induction recs with
  | nil => intro _ st tr gr hr; exact absurd hr (List.not_mem_nil _)
  | cons r0 rs ih =>
      obtain ⟨t0, g0⟩ := r0
      intro hinj st tr gr hr q hq
      rw [runBatchV2_snd_cons]
      rcases List.mem_cons.mp hr with hEq | hmem
      · injection hEq with h1 h2
        subst h1; subst h2
        rw [resolvedQids_cons_some hq] at hinj
        have hnotin : q ∉ resolvedQids index rs := (List.nodup_cons.mp hinj).1
        by_cases hv : storeGet snap q = some gr
        · simp only [runOneV2_skip hq hv]
          rw [runBatchV2_unresolved index snap rs st q hnotin, if_pos hv]
        · simp only [runOneV2_write hq hv]
          rw [runBatchV2_unresolved index snap rs _ q hnotin, storeGet_storeSet,
            if_pos rfl, if_neg hv]
      · have hqmem : q ∈ resolvedQids index rs :=
          mem_resolvedQids.mpr ⟨(tr, gr), hmem, hq⟩
        cases h0 : lookupKey index (Nat.repr t0) with
        | none =>
            rw [resolvedQids_cons_none h0] at hinj
            simp only [runOneV2_none h0]
            exact ih hinj st tr gr hmem q hq
        | some q0 =>
            rw [resolvedQids_cons_some h0] at hinj
            have hq0 : q0 ∉ resolvedQids index rs := (List.nodup_cons.mp hinj).1
            have htail := (List.nodup_cons.mp hinj).2
            have hne : q0 ≠ q := fun hEq2 => hq0 (hEq2 ▸ hqmem)
            by_cases hv : storeGet snap q0 = some g0
            · simp only [runOneV2_skip h0 hv]
              exact ih htail st tr gr hmem q hq
            · simp only [runOneV2_write h0 hv]
              rw [ih htail _ tr gr hmem q hq, storeGet_storeSet, if_neg hne]

/-- After a full run with injective resolution, the entity each record
resolves to holds that record's value. -/
theorem runFull_store (index : List (String × Qid)) (S0 : Store)
    (recs : List (Nat × String))
    (hinj : (resolvedQids index recs).Nodup) :
    ∀ tr : Nat, ∀ gr : String, (tr, gr) ∈ recs →
    ∀ q : Qid, lookupKey index (Nat.repr tr) = some q →
    storeGet (runFull index S0 recs).2 q = some gr := by
  intro tr gr hr q hq
  have h := runBatchV2_resolved index S0 recs hinj S0 tr gr hr q hq
  unfold runFull
  rw [h]
  by_cases hv : storeGet S0 q = some gr
  · rw [if_pos hv]; exact hv
  · rw [if_neg hv]

/-- When the snapshot already carries every record's value, the batch
never writes: the store passes through unchanged. -/
theorem runBatchV2_allskip (index : List (String × Qid)) (snap : Store) :
    ∀ recs : List (Nat × String),
    (∀ tr : Nat, ∀ gr : String, (tr, gr) ∈ recs →
      ∀ q : Qid, lookupKey index (Nat.repr tr) = some q →
      storeGet snap q = some gr) →
    ∀ st : Store, (runBatchV2 index snap st recs).2 = st := by
  intro recs
  induction recs with
  | nil => intro _ st; rfl
  | cons r0 rs ih =>
      obtain ⟨t0, g0⟩ := r0
      intro hs st
      have htail : ∀ tr : Nat, ∀ gr : String, (tr, gr) ∈ rs →
          ∀ q : Qid, lookupKey index (Nat.repr tr) = some q →
          storeGet snap q = some gr :=
        fun tr gr hr => hs tr gr (List.mem_cons_of_mem _ hr)
      rw [runBatchV2_snd_cons]
      cases h0 : lookupKey index (Nat.repr t0) with
      | none =>
          simp only [runOneV2_none h0]
          exact ih htail st
      | some q0 =>
          have hv : storeGet snap q0 = some g0 :=
            hs t0 g0 (List.mem_cons_self _ _) q0 h0
          simp only [runOneV2_skip h0 hv]
          exact ih htail st

/-- A written outcome pins down the index entry of the record. -/
theorem outcomeV2_written_inv {index : List (String × Qid)} {snap : Store}
    {taxid : Nat} {gid : String} {q : Qid}
    (h : outcomeV2 index snap taxid gid = .written q) :
    lookupKey index (Nat.repr taxid) = some q := by
  cases hl : lookupKey index (Nat.repr taxid) with
  | none =>
      have hne : outcomeV2 index snap taxid gid = .notFound := by
        simp [outcomeV2, hl]
      rw [hne] at h
      cases h
  | some q0 =>
      by_cases hv : storeGet snap q0 = some gid
      · have hsk : outcomeV2 index snap taxid gid = .skipped q0 := by
          simp [outcomeV2, hl, hv]
        rw [hsk] at h
        cases h
      · have hwr : outcomeV2 index snap taxid gid = .written q0 := by
          simp [outcomeV2, hl, hv]
        rw [hwr] at h
        injection h with h2
        rw [← h2]

/-- C2: with injective resolution (the spec's well-formed-batch premise:
no two records of a batch target the same entity), running the full batch
a second time starting from the first run's final remote state leaves
that state identical, and every record written in the first run comes out
skipped (no write) in the second. -/
theorem C2_rerun_converges (index : List (String × Qid)) (S0 : Store)
    (recs : List (Nat × String))
    (hinj : (resolvedQids index recs).Nodup) :
    (runFull index (runFull index S0 recs).2 recs).2 = (runFull index S0 recs).2 ∧
    (∀ i : Nat, ∀ q : Qid,
      (runFull index S0 recs).1.get? i = some (.written q) →
      (runFull index (runFull index S0 recs).2 recs).1.get? i = some (.skipped q)) := by
  have hsat : ∀ tr : Nat, ∀ gr : String, (tr, gr) ∈ recs → ∀ q : Qid,
      lookupKey index (Nat.repr tr) = some q →
      storeGet (runFull index S0 recs).2 q = some gr :=
    runFull_store index S0 recs hinj
  constructor
  · exact runBatchV2_allskip index _ recs hsat _
  · intro i q hw
    have h1 : (runFull index S0 recs).1 =
        recs.map (fun r => outcomeV2 index S0 r.1 r.2) :=
      runBatchV2_fst index S0 recs S0
    have h2 : (runFull index (runFull index S0 recs).2 recs).1 =
        recs.map (fun r => outcomeV2 index (runFull index S0 recs).2 r.1 r.2) :=
      runBatchV2_fst index _ recs _
    rw [h1, List.get?_map] at hw
    cases hr : recs.get? i with
    | none => rw [hr] at hw; cases hw
    | some r =>
        rw [hr, Option.map_some'] at hw
        have hw' := Option.some.inj hw
        have hres : lookupKey index (Nat.repr r.1) = some q :=
          outcomeV2_written_inv hw'
        have hmem : (r.1, r.2) ∈ recs := List.get?_mem hr
        have hS1q : storeGet (runFull index S0 recs).2 q = some r.2 :=
          hsat r.1 r.2 hmem q hres
        rw [h2, List.get?_map, hr, Option.map_some']
        have hout : outcomeV2 index (runFull index S0 recs).2 r.1 r.2 =
            .skipped q := by
          simp [outcomeV2, hres, hS1q]
        rw [hout]

/-- C2 witness: a batch of one record written in the first run (empty
initial store) converges on the second run, whose outcome is skipped. -/
theorem C2_rerun_witness :
    (runFull wIndex2 (runFull wIndex2 [] wRecs2).2 wRecs2).2 =
      (runFull wIndex2 [] wRecs2).2 ∧
    (runFull wIndex2 (runFull wIndex2 [] wRecs2).2 wRecs2).1.get? 0 =
      some (.skipped "Q383453") :=
  ⟨(C2_rerun_converges wIndex2 [] wRecs2 (by decide)).1,
   (C2_rerun_converges wIndex2 [] wRecs2 (by decide)).2 0 "Q383453" (by decide)⟩

/-- C3: for an entity whose existing value matches and whose existing
reference was retrieved at day 0, with a 180-day staleness window, a
reconciliation evaluated at day 181 plans an update of the reference, at
day 179 a no-op, and the boundary day 180 is treated as stale. -/
theorem C3_staleness (v : String) :
    planV3 (some ⟨v, 0⟩) v 181 stalenessWindow = .updateReference ∧
    planV3 (some ⟨v, 0⟩) v 179 stalenessWindow = .noOp ∧
    planV3 (some ⟨v, 0⟩) v 180 stalenessWindow = .updateReference := by
  refine ⟨?_, ?_, ?_⟩ <;> simp [planV3, stalenessWindow]

/-- C10: for every accession string, `create_reference` returns exactly
three reference statements in fixed order: `stated in` pointing to the
GenBank item Q901755, `retrieved` equal to the current UTC date with the
time-of-day fixed to 00:00:00, and `reference URL` equal to the NCBI
genome query URL with the accession appended. -/
theorem C10_create_reference (g : String) (today : UTCDate) :
    (create_reference g today).length = 3 ∧
    (create_reference g today).get? 0 =
      some ⟨propStatedIn, .item "Q901755"⟩ ∧
    (create_reference g today).get? 1 =
      some ⟨propRetrieved, .time ("+" ++ pad4 today.year ++ "-" ++
        pad2 today.month ++ "-" ++ pad2 today.day ++ "T00:00:00Z")⟩ ∧
    (create_reference g today).get? 2 =
      some ⟨propRefURL, .url ("https://www.ncbi.nlm.nih.gov/genome/?term=" ++ g)⟩ := by
  refine ⟨rfl, rfl, ?_, rfl⟩
  simp [create_reference, retrievedTimestamp]

/-- The V1 batch is the per-record map: no record's result depends on or
interrupts the others. -/
theorem runBatchV1_eq_map (cap : Nat) :
    ∀ recs : List (RecordEnv × Nat × String),
    runBatchV1 cap recs = recs.map (fun p => runOneV1 cap p.1 p.2.1 p.2.2) := by
  intro recs
  induction recs with
  | nil => rfl
  | cons p ps ih =>
      obtain ⟨env, t, g⟩ := p
      simp [runBatchV1, ih]

/-- A write whose every remote response is a transient failure ends in
retry exhaustion, whatever the attempt cap. -/
theorem tryWrite_transient (q : Qid) :
    ∀ rs : List WriteResp, (∀ r ∈ rs, r = WriteResp.transient) →
    ∀ cap : Nat, (tryWrite q cap rs).1 = .transientExhausted q := by
  intro rs
  induction rs with
  | nil =>
      intro _ cap
      cases cap with
      | zero => rfl
      | succ c => rfl
  | cons r rs' ih =>
      intro hall cap
      have hr : r = WriteResp.transient := hall r (List.mem_cons_self _ _)
      subst hr
      cases cap with
      | zero => rfl
      | succ c =>
          exact ih (fun x hx => hall x (List.mem_cons_of_mem _ hx)) c

/-- C4: in per-record mode, a record whose identifying value matches more
than one remote entity ends in the ambiguous error outcome — logged at
error severity, with zero remote write calls — and the batch simply
continues with the remaining records. -/
theorem C4_ambiguous_error (cap : Nat) (env : RecordEnv) (taxid : Nat)
    (gid : String) (h : 1 < env.found.length) :
    (runOneV1 cap env taxid gid).1 = .ambiguous env.found.length ∧
    (runOneV1 cap env taxid gid).2 = 0 ∧
    (entryV1 cap env taxid gid).level = "ERROR" ∧
    (∀ rs : List (RecordEnv × Nat × String),
      runBatchV1 cap ((env, taxid, gid) :: rs) =
        runOneV1 cap env taxid gid :: runBatchV1 cap rs) := by
  match hm : env.found with
  | [] => rw [hm] at h; simp at h
  | [q] => rw [hm] at h; simp at h
  | a :: b :: t =>
      refine ⟨?_, ?_, ?_, fun rs => rfl⟩ <;>
        simp [runOneV1, entryV1, hm]

/-- C4 witness: a record matching the two entities Q1 and Q2. -/
theorem C4_ambiguous_witness :
    (runOneV1 3 ⟨["Q1", "Q2"], []⟩ 9 "GCA_000237975.1").1 = .ambiguous 2 ∧
    (runOneV1 3 ⟨["Q1", "Q2"], []⟩ 9 "GCA_000237975.1").2 = 0 ∧
    (entryV1 3 ⟨["Q1", "Q2"], []⟩ 9 "GCA_000237975.1").level = "ERROR" :=
  ⟨(C4_ambiguous_error 3 ⟨["Q1", "Q2"], []⟩ 9 "GCA_000237975.1" (by decide)).1,
   (C4_ambiguous_error 3 ⟨["Q1", "Q2"], []⟩ 9 "GCA_000237975.1" (by decide)).2.1,
   (C4_ambiguous_error 3 ⟨["Q1", "Q2"], []⟩ 9 "GCA_000237975.1" (by decide)).2.2.1⟩

/-- C7: every record of a V1 batch yields exactly one recorded outcome in
position — the loop never aborts — and each failure mode is converted to
an outcome at the record boundary: no match to not-found, multiple
matches to ambiguous, all-transient responses to retry exhaustion, and a
conflict response to a conflict error. -/
theorem C7_record_boundary (cap : Nat) (recs : List (RecordEnv × Nat × String)) :
    (runBatchV1 cap recs).length = recs.length ∧
    (∀ i : Nat, (runBatchV1 cap recs).get? i =
      (recs.get? i).map (fun p => runOneV1 cap p.1 p.2.1 p.2.2)) ∧
    (∀ env : RecordEnv, ∀ t : Nat, ∀ g : String, env.found = [] →
      (runOneV1 cap env t g).1 = .notFound) ∧
    (∀ env : RecordEnv, ∀ t : Nat, ∀ g : String, 1 < env.found.length →
      (runOneV1 cap env t g).1 = .ambiguous env.found.length) ∧
    (∀ q : Qid, ∀ rs : List WriteResp, (∀ r ∈ rs, r = WriteResp.transient) →
      (tryWrite q cap rs).1 = .transientExhausted q) ∧
    (∀ q : Qid, ∀ c : Nat, ∀ rs : List WriteResp,
      (tryWrite q (c + 1) (WriteResp.conflict :: rs)).1 = .conflictError q) := by
  refine ⟨?_, ?_, ?_, ?_, fun q rs h => tryWrite_transient q rs h cap,
    fun q c rs => rfl⟩
  · rw [runBatchV1_eq_map]
    exact List.length_map _ _
  · intro i
    rw [runBatchV1_eq_map, List.get?_map]
  · intro env t g h
    simp [runOneV1, h]
  · intro env t g h
    match hm : env.found with
    | [] => rw [hm] at h; simp at h
    | [q] => rw [hm] at h; simp at h
    | a :: b :: t' => simp [runOneV1, hm]

/-- C7 witness: the four failure modes at concrete records, obtained from
the boundary theorem. -/
theorem C7_record_witness :
    (runOneV1 2 ⟨[], []⟩ 5 "GCA_000299965.1").1 = .notFound ∧
    (runOneV1 2 ⟨["Q1", "Q2"], []⟩ 5 "GCA_000299965.1").1 = .ambiguous 2 ∧
    (tryWrite "Q3" 2 [.transient, .transient, .transient]).1 =
      .transientExhausted "Q3" ∧
    (tryWrite "Q4" 2 [.conflict]).1 = .conflictError "Q4" := by
  have h := C7_record_boundary 2 []
  exact ⟨h.2.2.1 ⟨[], []⟩ 5 "GCA_000299965.1" rfl,
         h.2.2.2.1 ⟨["Q1", "Q2"], []⟩ 5 "GCA_000299965.1" (by decide),
         h.2.2.2.2.1 "Q3" [.transient, .transient, .transient] (by decide),
         h.2.2.2.2.2 "Q4" 1 []⟩

/-- Rendering after an append: the old lines, then the new line. -/
theorem renderLog_logAppend (ls : LogState) (e : LogEntry) :
    renderLog (logAppend ls e) = renderLog ls ++ [renderEntry e] := by
  simp [renderLog, logAppend]

/-- A batch appends one rendered line per record, in order, after the
existing lines. -/
theorem runBatchV2Log_render (index : List (String × Qid)) (snap : Store) :
    ∀ (recs : List (Nat × String)) (ls : LogState),
    renderLog (runBatchV2Log index snap ls recs) =
      renderLog ls ++ recs.map (fun r => renderEntry (entryV2 index snap r.1 r.2)) := by
  intro recs
  induction recs with
  | nil => intro ls; simp [runBatchV2Log]
  | cons r rs ih =>
      intro ls
      obtain ⟨t, g⟩ := r
      show renderLog (runBatchV2Log index snap
        (logAppend ls (entryV2 index snap t g)) rs) = _
      rw [ih, renderLog_logAppend, List.append_assoc, List.map_cons,
        List.singleton_append]

/-- A batch never touches the log header. -/
theorem runBatchV2Log_header (index : List (String × Qid)) (snap : Store) :
    ∀ (recs : List (Nat × String)) (ls : LogState),
    (runBatchV2Log index snap ls recs).header = ls.header := by
  intro recs
  induction recs with
  | nil => intro ls; rfl
  | cons r rs ih =>
      intro ls
      obtain ⟨t, g⟩ := r
      show (runBatchV2Log index snap (logAppend ls (entryV2 index snap t g)) rs).header = _
      rw [ih]
      rfl

/-- C8: a batch's rendered log stream is the prior stream unchanged
(append-only) followed by exactly one self-describing line per processed
record, the stream's first line is the header carrying the run metadata,
and every appended line carries the record's id and target property. -/
theorem C8_audit_log (index : List (String × Qid)) (snap : Store)
    (ls : LogState) (recs : List (Nat × String)) :
    renderLog (runBatchV2Log index snap ls recs) =
      renderLog ls ++
        recs.map (fun r => renderEntry (entryV2 index snap r.1 r.2)) ∧
    (renderLog (runBatchV2Log index snap ls recs)).get? 0 =
      some (headerLine ls.header) ∧
    (∀ tr : Nat, ∀ gr : String, (tr, gr) ∈ recs →
      (entryV2 index snap tr gr).recordId = gr ∧
      (entryV2 index snap tr gr).prop = propGenBank) := by
  refine ⟨runBatchV2Log_render index snap recs ls, ?_, ?_⟩
  · show (renderLog (runBatchV2Log index snap ls recs)).get? 0 = _
    rw [renderLog]
    show some (headerLine (runBatchV2Log index snap ls recs).header) = _
    rw [runBatchV2Log_header]
  · intro tr gr _
    cases h : lookupKey index (Nat.repr tr) with
    | none => simp [entryV2, h]
    | some q =>
        by_cases hv : storeGet snap q = some gr <;>
          simp [entryV2, h, hv]

/-- C8 witness: one record appended to a fresh stream — the stream stays
headed by the header line, grows by exactly the record's line, and that
line carries the record's id. -/
theorem C8_audit_witness :
    renderLog (runBatchV2Log wIndex2 [] ⟨wHeader, []⟩ wRecs2) =
      renderLog ⟨wHeader, []⟩ ++
        wRecs2.map (fun r => renderEntry (entryV2 wIndex2 [] r.1 r.2)) ∧
    (renderLog (runBatchV2Log wIndex2 [] ⟨wHeader, []⟩ wRecs2)).get? 0 =
      some (headerLine wHeader) ∧
    (entryV2 wIndex2 [] 9 "GCA_900128725.1").recordId = "GCA_900128725.1" := by
  have h := C8_audit_log wIndex2 [] ⟨wHeader, []⟩ wRecs2
  exact ⟨h.1, h.2.1,
    (h.2.2 9 "GCA_900128725.1" (List.mem_cons_self _ _)).1⟩

/-- Membership in a bucket after one insertion step. -/
theorem bucketOf_addToBucket (v q : String) (q' : Qid) :
    ∀ (acc : List (String × List Qid)) (v' : String),
    q ∈ bucketOf (addToBucket acc v' q') v ↔
      (v = v' ∧ q = q') ∨ q ∈ bucketOf acc v := by
  intro acc
  induction acc with
  | nil =>
      intro v'
      by_cases h : v' = v
      · subst h
        simp [addToBucket, bucketOf, lookupKey]
      · have h2 : ¬ v = v' := fun hh => h hh.symm
        simp [addToBucket, bucketOf, lookupKey, h, h2]
  | cons p t ih =>
      intro v'
      obtain ⟨a, qs⟩ := p
      by_cases hav : a = v'
      · subst hav
        by_cases hv : a = v
        · subst hv
          by_cases hq : q' ∈ qs
          · rw [show addToBucket ((a, qs) :: t) a q' = (a, qs) :: t from by
              simp [addToBucket, hq]]
            have e : bucketOf ((a, qs) :: t) a = qs := by
              simp [bucketOf, lookupKey]
            rw [e]
            constructor
            · exact Or.inr
            · rintro (⟨_, rfl⟩ | hqq)
              · exact hq
              · exact hqq
          · rw [show addToBucket ((a, qs) :: t) a q' = (a, qs ++ [q']) :: t from by
              simp [addToBucket, hq]]
            have e1 : bucketOf ((a, qs ++ [q']) :: t) a = qs ++ [q'] := by
              simp [bucketOf, lookupKey]
            have e2 : bucketOf ((a, qs) :: t) a = qs := by
              simp [bucketOf, lookupKey]
            rw [e1, e2, List.mem_append, List.mem_singleton]
            constructor
            · rintro (hqq | rfl)
              · exact Or.inr hqq
              · exact Or.inl ⟨rfl, rfl⟩
            · rintro (⟨_, rfl⟩ | hqq)
              · exact Or.inr rfl
              · exact Or.inl hqq
        · have hva : ¬ v = a := fun hh => hv hh.symm
          simp [addToBucket, bucketOf, lookupKey, hv, hva]
      · by_cases hv : a = v
        · subst hv
          have hvv : ¬ a = v' := hav
          simp [addToBucket, bucketOf, lookupKey, hav, hvv]
        · have hva : ¬ v = a := fun hh => hv hh.symm
          simp only [addToBucket, if_neg hav, bucketOf, lookupKey, if_neg hv]
          exact ih v'

/-- An entity sits in the built index's bucket for value `v` exactly when
the snapshot carries that (entity, value) statement. -/
theorem mem_bucketOf_idMapper (snap : List (Qid × String)) (v : String) (q : Qid) :
    q ∈ bucketOf (idMapper snap) v ↔ (q, v) ∈ snap := by
  suffices h : ∀ acc : List (String × List Qid),
      q ∈ bucketOf (snap.foldl (fun acc p => addToBucket acc p.2 p.1) acc) v ↔
        q ∈ bucketOf acc v ∨ (q, v) ∈ snap by
    have h0 := h []
    simpa [idMapper, bucketOf, lookupKey] using h0
  induction snap with
  | nil => intro acc; simp
  | cons p ps ih =>
      intro acc
      obtain ⟨pq, pv⟩ := p
      simp only [List.foldl_cons]
      rw [ih (addToBucket acc pv pq), bucketOf_addToBucket]
      simp only [List.mem_cons, Prod.mk.injEq]
      tauto

/-- An entity is among the per-record search results for value `v`
exactly when the snapshot carries that (entity, value) statement. -/
theorem mem_searchQids (snap : List (Qid × String)) (v : String) (q : Qid) :
    q ∈ searchQids snap v ↔ (q, v) ∈ snap := by
  simp only [searchQids, List.mem_dedup, List.mem_map, List.mem_filter,
    beq_iff_eq]
  constructor
  · rintro ⟨⟨a, b⟩, ⟨hmem, hbv⟩, rfl⟩
    subst hbv
    exact hmem
  · intro h
    exact ⟨(q, v), ⟨h, rfl⟩, rfl⟩

/-- Keys after one insertion step: unchanged when the value was already
keyed, extended by it otherwise. -/
theorem keysOf_addToBucket (v : String) (q : Qid) :
    ∀ acc : List (String × List Qid),
    keysOf (addToBucket acc v q) =
      if v ∈ keysOf acc then keysOf acc else keysOf acc ++ [v] := by
  intro acc
  induction acc with
  | nil => simp [addToBucket, keysOf]
  | cons p t ih =>
      obtain ⟨a, qs⟩ := p
      by_cases hav : a = v
      · subst hav
        simp [addToBucket, keysOf]
      · have hva : ¬ v = a := fun hh => hav hh.symm
        have hk : keysOf ((a, qs) :: t) = a :: keysOf t := rfl
        rw [show addToBucket ((a, qs) :: t) v q =
              (a, qs) :: addToBucket t v q from by simp [addToBucket, hav],
          show keysOf ((a, qs) :: addToBucket t v q) =
              a :: keysOf (addToBucket t v q) from rfl,
          ih, hk]
        by_cases hm : v ∈ keysOf t
        · rw [if_pos hm, if_pos (List.mem_cons_of_mem _ hm)]
        · rw [if_neg hm,
            if_neg (by simp [List.mem_cons, hva, hm])]
          rfl

/-- The built index keys each identifier value at most once. -/
theorem idMapper_keys_nodup (snap : List (Qid × String)) :
    (keysOf (idMapper snap)).Nodup := by
  suffices h : ∀ acc : List (String × List Qid), (keysOf acc).Nodup →
      (keysOf (snap.foldl (fun acc p => addToBucket acc p.2 p.1) acc)).Nodup by
    exact h [] (by simp [keysOf])
  induction snap with
  | nil => intro acc h; simpa using h
  | cons p ps ih =>
      intro acc h
      simp only [List.foldl_cons]
      apply ih
      rw [keysOf_addToBucket]
      by_cases hm : p.2 ∈ keysOf acc
      · rw [if_pos hm]; exact h
      · rw [if_neg hm]
        rw [List.nodup_append]
        exact ⟨h, List.nodup_singleton _,
          fun a ha ha' => hm ((List.mem_singleton.mp ha') ▸ ha)⟩

/-- When an index has no entry for `v`, neither has its restriction to
single-entity identifiers. -/
theorem lookup_bulk_of_not_mem (v : String) :
    ∀ idx : List (String × List Qid), v ∉ keysOf idx →
    lookupKey (idx.filterMap (fun p =>
      match p.2 with
      | [q] => some (p.1, q)
      | _ => none)) v = none := by
  intro idx
  induction idx with
  | nil => intro _; rfl
  | cons p t ih =>
      obtain ⟨a, qs⟩ := p
      intro hv
      have hva : ¬ a = v := fun hh =>
        hv (hh ▸ List.mem_cons_self _ _)
      have hvt : v ∉ keysOf t := fun hh => hv (List.mem_cons_of_mem _ hh)
      match hqs : qs with
      | [q1] => simp [List.filterMap_cons, lookupKey, hva, ih hvt]
      | [] => simp [List.filterMap_cons, ih hvt]
      | q1 :: q2 :: qt => simp [List.filterMap_cons, ih hvt]

/-- A hit in the single-entity restriction of a uniquely-keyed index
pins the full index's bucket to that single entity. -/
theorem lookup_bulk_bucket (v : String) (qb : Qid) :
    ∀ idx : List (String × List Qid), (keysOf idx).Nodup →
    lookupKey (idx.filterMap (fun p =>
      match p.2 with
      | [q] => some (p.1, q)
      | _ => none)) v = some qb →
    bucketOf idx v = [qb] := by
  intro idx
  induction idx with
  | nil => intro _ h; cases h
  | cons p t ih =>
      obtain ⟨a, qs⟩ := p
      intro hnd h
      have ha : a ∉ keysOf t :=
        (List.nodup_cons.mp (show (a :: keysOf t).Nodup from hnd)).1
      have hndt : (keysOf t).Nodup :=
        (List.nodup_cons.mp (show (a :: keysOf t).Nodup from hnd)).2
      by_cases hav : a = v
      · subst hav
        match hqs : qs with
        | [q1] =>
            simp [List.filterMap_cons, lookupKey] at h
            simp [bucketOf, lookupKey, h]
        | [] =>
            simp only [List.filterMap_cons] at h
            rw [lookup_bulk_of_not_mem a t ha] at h
            cases h
        | q1 :: q2 :: qt =>
            simp only [List.filterMap_cons] at h
            rw [lookup_bulk_of_not_mem a t ha] at h
            cases h
      · have hres : bucketOf ((a, qs) :: t) v = bucketOf t v := by
          simp [bucketOf, lookupKey, hav]
        rw [hres]
        apply ih hndt
        match hqs : qs with
        | [q1] =>
            simpa [List.filterMap_cons, lookupKey, hav] using h
        | [] =>
            simpa [List.filterMap_cons] using h
        | q1 :: q2 :: qt =>
            simpa [List.filterMap_cons] using h

/-- C6: over a fixed remote-store snapshot, whenever the bulk strategy's
prebuilt index and the per-record search both resolve an identifier
value, they resolve it to the same remote entity. -/
theorem C6_strategies_agree (snap : List (Qid × String)) (v : String)
    (qb qp : Qid)
    (hb : lookupKey (bulkIndex snap) v = some qb)
    (hp : perRecordResolve snap v = some qp) :
    qb = qp := by
  have hbq : bucketOf (idMapper snap) v = [qb] :=
    lookup_bulk_bucket v qb (idMapper snap) (idMapper_keys_nodup snap) hb
  have hmem : (qb, v) ∈ snap := by
    have hin : qb ∈ bucketOf (idMapper snap) v := by
      rw [hbq]; exact List.mem_cons_self _ _
    exact (mem_bucketOf_idMapper snap v qb).mp hin
  have hsq : qb ∈ searchQids snap v := (mem_searchQids snap v qb).mpr hmem
  have hs : searchQids snap v = [qp] := by
    cases hh : searchQids snap v with
    | nil =>
        unfold perRecordResolve at hp
        rw [hh] at hp
        cases hp
    | cons x xs =>
        cases xs with
        | nil =>
            unfold perRecordResolve at hp
            rw [hh] at hp
            injection hp with hx
            rw [hx]
        | cons y ys =>
            unfold perRecordResolve at hp
            rw [hh] at hp
            cases hp
  rw [hs] at hsq
  simpa using hsq

/-- C6 witness: both strategies resolve identifier "9" and agree on
Q383453. -/
theorem C6_agree_witness :
    lookupKey (bulkIndex wSnap6) "9" = some "Q383453" ∧
    perRecordResolve wSnap6 "9" = some "Q383453" ∧
    ("Q383453" : Qid) = "Q383453" :=
  ⟨by decide, by decide,
   C6_strategies_agree wSnap6 "9" "Q383453" "Q383453" (by decide) (by decide)⟩

end Demo

